import Mathlib

/-!
Verification development for the NutriTrack nutrition-tracking application.

The engine under study lives in the TypeScript sources:
  - NutritionCalculator (calculateNutrients, verifySanity, searchFoods),
  - the daily aggregation helpers in services/db.ts
    (saveMeal, deleteMeal, recalculateDailyLog, sumNutrients),
  - utils/formatUtils.ts (safeAdd) and utils/dateUtils.ts (getLocalISOString),
  - the AI candidate-item builders in CameraScanner.captureAndDetect and
    ManualEntryModal.analyzeWithAI.

Modelling conventions:
  - JavaScript numbers are modelled as exact rationals.  The explicit
    rounding steps of the source (Math.round, toFixed(1) + parseFloat,
    the times-100 scaling of safeAdd) are modelled exactly: JS Math.round
    and the toFixed tie rule both pick the larger candidate on a tie,
    which is exactly Mathlib round (floor of x + 1/2).  Where a claim is
    explicitly about binary floating point, a separate exact model of
    IEEE-754 binary64 rounding (fl64 below) is used at concrete inputs.
  - Timestamps are modelled by their local wall-clock components at
    minute granularity, which is the granularity the day-boundary logic
    observes.
  - Fallible code returns Except; a Dexie transaction abort leaves the
    store unchanged, so an aborted saveMeal is modelled as the identity.
-/

/-- Model of JS Math.round: round half toward positive infinity, which is
Mathlib round on rationals. -/
def jsRound (x : ℚ) : ℤ := round x

/-- Model of parseFloat(x.toFixed(1)): round to the nearest multiple of
one tenth, ties toward the larger candidate (the ECMA toFixed rule). -/
def round1 (x : ℚ) : ℚ := ((jsRound (10 * x) : ℤ) : ℚ) / 10

/-- Model of safeAdd from utils/formatUtils.ts, at its binary use sites:
scale both operands by 100, round each to an integer, add the integers and
divide back. -/
def safeAdd (a b : ℚ) : ℚ := (((jsRound (a * 100) + jsRound (b * 100)) : ℤ) : ℚ) / 100

/-- Nutrients record from types.ts; the optional micros field is modelled
as a plain list, with the absent field read as the empty list exactly as
the source codes `a.micros || []`. -/
structure Nutrients where
  calories : ℚ
  protein : ℚ
  carbs : ℚ
  fat : ℚ
  fiber : ℚ
  sourceDatabase : String
  micros : List String
deriving DecidableEq

/-- Per-gram nutrient coefficients of a catalog entry. -/
structure PerGram where
  calories : ℚ
  protein : ℚ
  carbs : ℚ
  fat : ℚ
  fiber : ℚ
deriving DecidableEq

/-- Preset portion of a catalog entry. -/
structure PortionPreset where
  id : String
  label : String
  grams : ℚ
  unit : String
deriving DecidableEq

/-- Catalog entry from types.ts. -/
structure FoodItem where
  id : String
  name : String
  nameAliases : List String
  category : String
  nutrientsPerGram : PerGram
  defaultPortionGrams : ℚ
  portions : List PortionPreset
  source : String
  version : String
deriving DecidableEq

/-- The static food catalog from data/nutrition-db.ts, with every
coefficient transcribed as the exact decimal the source writes. -/
def nutritionDbFoods : List FoodItem :=
  [ { id := "ifct_001", name := "Roti (Whole Wheat)"
      nameAliases := ["Chapati", "Phulka", "Wheat Bread", "Fulka"]
      category := "Grains"
      nutrientsPerGram := { calories := 3.0, protein := 0.10, carbs := 0.60, fat := 0.05, fiber := 0.10 }
      defaultPortionGrams := 40
      portions := [{ id := "p_r1", label := "1 piece", grams := 40, unit := "pieces" }]
      source := "IFCT", version := "2024.1" }
  , { id := "ifct_002", name := "Dal (Moong, cooked)"
      nameAliases := ["Moong Dal", "Yellow Lentil", "Green Gram Dal"]
      category := "Proteins"
      nutrientsPerGram := { calories := 1.2, protein := 0.08, carbs := 0.16, fat := 0.027, fiber := 0.04 }
      defaultPortionGrams := 150
      portions := [{ id := "p_d1", label := "1 katori", grams := 150, unit := "katori" }]
      source := "IFCT", version := "2024.1" }
  , { id := "ifct_003", name := "White Rice (Cooked)"
      nameAliases := ["Chawal", "Steamed Rice", "Basmati Rice"]
      category := "Grains"
      nutrientsPerGram := { calories := 1.3, protein := 0.027, carbs := 0.28, fat := 0.003, fiber := 0.004 }
      defaultPortionGrams := 150
      portions := [{ id := "p_ric1", label := "1 katori", grams := 150, unit := "katori" }]
      source := "IFCT", version := "2024.1" }
  , { id := "ifct_004", name := "Paneer Curry"
      nameAliases := ["Paneer Butter Masala", "Shahi Paneer", "Paneer Sabzi"]
      category := "Mixed"
      nutrientsPerGram := { calories := 2.5, protein := 0.12, carbs := 0.08, fat := 0.20, fiber := 0.01 }
      defaultPortionGrams := 200
      portions := [{ id := "p_pan1", label := "1 katori", grams := 200, unit := "katori" }]
      source := "IFCT", version := "2024.1" }
  , { id := "ifct_005", name := "Banana"
      nameAliases := ["Kela", "Fruit"]
      category := "Fruits"
      nutrientsPerGram := { calories := 0.89, protein := 0.011, carbs := 0.228, fat := 0.003, fiber := 0.026 }
      defaultPortionGrams := 118
      portions := [{ id := "p_ban1", label := "1 medium", grams := 118, unit := "medium" }]
      source := "IFCT", version := "2024.1" }
  , { id := "ifct_006", name := "Idli"
      nameAliases := ["Rice Cake", "Steamed Rice Cake"]
      category := "Grains"
      nutrientsPerGram := { calories := 1.4, protein := 0.06, carbs := 0.28, fat := 0.005, fiber := 0.01 }
      defaultPortionGrams := 60
      portions := [{ id := "p_idl1", label := "1 piece", grams := 60, unit := "pieces" }]
      source := "IFCT", version := "2024.1" }
  , { id := "ifct_007", name := "Masala Dosa"
      nameAliases := ["Dosa", "Potato Dosa"]
      category := "Mixed"
      nutrientsPerGram := { calories := 2.1, protein := 0.05, carbs := 0.32, fat := 0.08, fiber := 0.02 }
      defaultPortionGrams := 250
      portions := [{ id := "p_dos1", label := "1 medium", grams := 250, unit := "medium" }]
      source := "IFCT", version := "2024.1" }
  , { id := "ifct_008", name := "Samosa"
      nameAliases := ["Aloo Samosa"]
      category := "Snacks"
      nutrientsPerGram := { calories := 2.6, protein := 0.06, carbs := 0.32, fat := 0.14, fiber := 0.02 }
      defaultPortionGrams := 80
      portions := [{ id := "p_sam1", label := "1 piece", grams := 80, unit := "pieces" }]
      source := "IFCT", version := "2024.1" }
  , { id := "ifct_009", name := "Chai (Milk Tea)"
      nameAliases := ["Tea", "Masala Chai", "Milk Tea with Sugar"]
      category := "Beverages"
      nutrientsPerGram := { calories := 0.7, protein := 0.02, carbs := 0.10, fat := 0.02, fiber := 0.0 }
      defaultPortionGrams := 150
      portions := [{ id := "p_chai1", label := "1 cup", grams := 150, unit := "cup" }]
      source := "IFCT", version := "2024.1" }
  , { id := "ifct_010", name := "Curd (Yogurt)"
      nameAliases := ["Dahi", "Yoghurt"]
      category := "Dairy"
      nutrientsPerGram := { calories := 0.6, protein := 0.035, carbs := 0.045, fat := 0.03, fiber := 0.0 }
      defaultPortionGrams := 150
      portions := [{ id := "p_curd1", label := "1 katori", grams := 150, unit := "katori" }]
      source := "IFCT", version := "2024.1" }
  , { id := "ifct_011", name := "Apple"
      nameAliases := ["Seb", "Fruit"]
      category := "Fruits"
      nutrientsPerGram := { calories := 0.52, protein := 0.003, carbs := 0.14, fat := 0.002, fiber := 0.024 }
      defaultPortionGrams := 180
      portions := [{ id := "p_app1", label := "1 medium", grams := 180, unit := "medium" }]
      source := "IFCT", version := "2024.1" }
  , { id := "ifct_012", name := "Omelette (2 eggs)"
      nameAliases := ["Egg Omelet", "Anda"]
      category := "Proteins"
      nutrientsPerGram := { calories := 1.5, protein := 0.11, carbs := 0.01, fat := 0.11, fiber := 0.0 }
      defaultPortionGrams := 120
      portions := [{ id := "p_ome1", label := "1 serving", grams := 120, unit := "medium" }]
      source := "IFCT", version := "2024.1" }
  ]

/-- Lookup in the id-keyed map the calculator builds in its constructor;
catalog ids are unique, so first-match lookup coincides with the Map. -/
def findFood (foodId : String) : Option FoodItem :=
  nutritionDbFoods.find? (fun f => f.id = foodId)

/-- Error taxonomy of the calculator, one constructor per throw site. -/
inductive CalcError where
  | notFound (foodId : String)
  | invalidPortion (grams : ℚ)
  | dataIntegrity (foodName : String)
deriving DecidableEq

deriving instance DecidableEq for Except

/-- Outcome of the verifySanity control flow: the check can be skipped for
near-zero-calorie items, pass silently, log a console warning and still
pass, or throw. -/
inductive SanityOutcome where
  | skipped
  | ok
  | warned
  | failed
deriving DecidableEq

/-- Atwater expectation computed by verifySanity from the already-rounded
record: protein times 4 plus carbs times 4 plus fat times 9. -/
def atwaterExpected (n : Nutrients) : ℚ :=
  n.protein * 4 + n.carbs * 4 + n.fat * 9

/-- Model of NutritionCalculator.verifySanity.  Tolerances: skip when both
calories and the expectation are below 10; soft tolerance
max(calories * 0.2, 20); hard failure beyond max(calories * 0.5, 50). -/
def verifySanity (n : Nutrients) : SanityOutcome :=
  let expectedKcal := atwaterExpected n
  if expectedKcal < 10 ∧ n.calories < 10 then .skipped
  else
    let diff := |n.calories - expectedKcal|
    let tolerance := max (n.calories * 0.2) 20
    if tolerance < diff then
      if max (n.calories * 0.5) 50 < diff then .failed else .warned
    else .ok

/-- Per-item record built by calculateNutrients before the sanity check:
raw per-gram coefficients times the portion, calories rounded to the
nearest integer and macros to one decimal, provenance inherited from the
catalog entry. -/
def rawNutrients (food : FoodItem) (portionGrams : ℚ) : Nutrients :=
  { calories := ((jsRound (food.nutrientsPerGram.calories * portionGrams) : ℤ) : ℚ)
    protein := round1 (food.nutrientsPerGram.protein * portionGrams)
    carbs := round1 (food.nutrientsPerGram.carbs * portionGrams)
    fat := round1 (food.nutrientsPerGram.fat * portionGrams)
    fiber := round1 (food.nutrientsPerGram.fiber * portionGrams)
    sourceDatabase := food.source
    micros := [] }

/-- Model of NutritionCalculator.calculateNutrients: unknown id fails
first, then non-positive portion, then the computed record is returned
unless the sanity check throws. -/
def calculateNutrients (foodId : String) (portionGrams : ℚ) : Except CalcError Nutrients :=
  match findFood foodId with
  | none => .error (.notFound foodId)
  | some food =>
    if portionGrams ≤ 0 then .error (.invalidPortion portionGrams)
    else
      let result := rawNutrients food portionGrams
      if verifySanity result = .failed then .error (.dataIntegrity food.name)
      else .ok result

/-! ### Fuzzy search (searchFoods) -/

/-- Whitespace class of the JS regular expression backslash-s and of
String.prototype.trim. -/
def isJsWs (c : Char) : Bool :=
  let n := c.toNat
  n = 32 ∨ n = 9 ∨ n = 10 ∨ n = 11 ∨ n = 12 ∨ n = 13 ∨ n = 160 ∨
  n = 0x1680 ∨ (0x2000 ≤ n ∧ n ≤ 0x200A) ∨ n = 0x2028 ∨ n = 0x2029 ∨
  n = 0x202F ∨ n = 0x205F ∨ n = 0x3000 ∨ n = 0xFEFF

/-- Model of toLowerCase on the character lists we manipulate; the catalog
is ASCII, where JS and Lean lowercasing agree. -/
def jsLower (s : String) : List Char := s.data.map Char.toLower

/-- Model of String.prototype.trim: drop whitespace from both ends. -/
def jsTrim (l : List Char) : List Char :=
  ((l.dropWhile isJsWs).reverse.dropWhile isJsWs).reverse

/-- One step of the split-on-whitespace-runs scan: completed segments,
the segment being built, and whether the previous character was
whitespace. -/
def splitWsStep (st : List (List Char) × List Char × Bool) (c : Char) :
    List (List Char) × List Char × Bool :=
  if isJsWs c then
    if st.2.2 then st else (st.1 ++ [st.2.1], [], true)
  else (st.1, st.2.1 ++ [c], false)

/-- Model of split on the regular expression of one-or-more whitespace
characters: maximal whitespace runs separate the segments, and a run at
either end contributes an empty segment, as in ECMAScript split. -/
def splitWs (l : List Char) : List (List Char) :=
  let fin := l.foldl splitWsStep ([], [], false)
  fin.1 ++ [fin.2.1]

/-- Model of String.prototype.includes on character lists. -/
def jsIncludes (target sub : List Char) : Bool := decide (sub <:+: target)

/-- Every query token occurs as a substring of the target. -/
def tokensAllIn (toks : List (List Char)) (target : List Char) : Bool :=
  toks.all (fun t => jsIncludes target t)

/-- Filter predicate of searchFoods: all tokens occur in the lowercased
name, or all tokens occur in some single lowercased alias. -/
def foodMatches (toks : List (List Char)) (f : FoodItem) : Bool :=
  tokensAllIn toks (jsLower f.name) ||
  f.nameAliases.any (fun al => tokensAllIn toks (jsLower al))

/-- Model of NutritionCalculator.searchFoods: lowercase and trim the
query, return the empty list on an empty result, otherwise filter the
catalog by token containment and keep the first ten matches. -/
def searchFoods (query : String) : List FoodItem :=
  let q := jsTrim (jsLower query)
  if q.isEmpty then []
  else ((nutritionDbFoods.filter (foodMatches (splitWs q))).take 10)

/-! ### Exact model of IEEE-754 binary64 rounding

Used only where a claim speaks about binary floating-point arithmetic
itself; the inputs of interest are nonzero and well inside the normal
range, so neither subnormals nor overflow need to be modelled. -/

/-- Powers of two with integer exponent, as rationals. -/
def qpow2 (e : ℤ) : ℚ :=
  if 0 ≤ e then ((2 ^ e.toNat : ℕ) : ℚ) else 1 / ((2 ^ (-e).toNat : ℕ) : ℚ)

/-- Upward scan for the binade of a rational at least one: raise the
exponent while the next power of two still fits below the value. -/
def qlog2Up : ℕ → ℚ → ℤ → ℤ
  | 0, _, e => e
  | fuel + 1, a, e => if qpow2 (e + 1) ≤ a then qlog2Up fuel a (e + 1) else e

/-- Downward scan for the binade of a positive rational below one: lower
the exponent until its power of two fits below the value. -/
def qlog2Down : ℕ → ℚ → ℤ → ℤ
  | 0, _, e => e
  | fuel + 1, a, e => if a < qpow2 e then qlog2Down fuel a (e - 1) else e

/-- Floor of the base-two logarithm of a positive rational: the unique e
with 2 ^ e ≤ a < 2 ^ (e + 1).  The fuel bound 1200 exceeds the binade
range of binary64, which is all this model is applied to. -/
def qfloorLog2 (a : ℚ) : ℤ :=
  if 1 ≤ a then qlog2Up 1200 a 0 else qlog2Down 1200 a 0

/-- Round a rational to the nearest integer with ties to even, the IEEE
default rounding direction. -/
def rte (x : ℚ) : ℤ :=
  let f := ⌊x⌋
  let r := x - (f : ℚ)
  if r < 1 / 2 then f
  else if 1 / 2 < r then f + 1
  else if f % 2 = 0 then f else f + 1

/-- Exact value of the IEEE-754 binary64 nearest to a rational (normal
range only): scale the 53-bit significand window and round to even. -/
def fl64 (q : ℚ) : ℚ :=
  if q = 0 then 0
  else
    let s : ℚ := if q < 0 then -1 else 1
    let a := |q|
    let e := qfloorLog2 a - 52
    s * (((rte (a / qpow2 e) : ℤ) : ℚ) * qpow2 e)

/-! ### Local timestamps and the day key -/

/-- Local wall-clock components of a timestamp, as read by getFullYear,
getMonth + 1, getDate, getHours and getMinutes, at minute granularity
(the day-boundary logic never inspects anything finer). -/
structure LocalDateTime where
  year : ℕ
  month : ℕ
  day : ℕ
  hour : ℕ
  minute : ℕ
deriving DecidableEq

/-- Valid time-of-day components. -/
def validTime (t : LocalDateTime) : Prop := t.hour < 24 ∧ t.minute < 60

instance (t : LocalDateTime) : Decidable (validTime t) := by
  unfold validTime
  infer_instance

/-- Days from 0000-03-01 to the given proleptic Gregorian civil date
(the standard era-based conversion), for years at least 1. -/
def daysFromCivil (y m d : ℕ) : ℕ :=
  let y1 := if m ≤ 2 then y - 1 else y
  let era := y1 / 400
  let yoe := y1 % 400
  let mp := (m + 9) % 12
  let doy := (153 * mp + 2) / 5 + d - 1
  let doe := yoe * 365 + yoe / 4 - yoe / 100 + doy
  era * 146097 + doe

/-- Inverse civil-date conversion: year, month and day of a day count
from 0000-03-01. -/
def civilFromDays (z : ℕ) : ℕ × ℕ × ℕ :=
  let era := z / 146097
  let doe := z % 146097
  let yoe := (doe - doe / 1460 + doe / 36524 - doe / 146096) / 365
  let y := yoe + era * 400
  let doy := doe - (365 * yoe + yoe / 4 - yoe / 100)
  let mp := (5 * doy + 2) / 153
  let d := doy - (153 * mp + 2) / 5 + 1
  let m := if mp < 10 then mp + 3 else mp - 9
  (if m ≤ 2 then y + 1 else y, m, d)

/-- Minutes elapsed since the civil epoch at the given local wall-clock
instant; this is the ordering key of the meals timestamp index. -/
def toMinutes (t : LocalDateTime) : ℕ :=
  daysFromCivil t.year t.month t.day * 1440 + t.hour * 60 + t.minute

/-- Two-digit zero padding, as padStart(2, zero) on day and month. -/
def pad2 (n : ℕ) : String :=
  if n < 10 then "0" ++ toString n else toString n

/-- Date key built from year, month and day components. -/
def dateKeyString (y m d : ℕ) : String :=
  toString y ++ "-" ++ pad2 m ++ "-" ++ pad2 d

/-- Model of getLocalISOString from utils/dateUtils.ts: the YYYY-MM-DD
key is assembled from the local wall-clock components of the date, never
from a UTC-normalized ISO string. -/
def getLocalISOString (t : LocalDateTime) : String :=
  dateKeyString t.year t.month t.day

/-- UTC civil date of a local instant under a timezone that is
offsetMinutes ahead of UTC; models the date part of Date.toISOString,
for instants whose UTC time is on or after the civil epoch. -/
def utcDateString (t : LocalDateTime) (offsetMinutes : ℤ) : String :=
  let um := ((toMinutes t : ℤ) - offsetMinutes).toNat
  let c := civilFromDays (um / 1440)
  dateKeyString c.1 c.2.1 c.2.2

/-! ### Meals, daily logs and the persistent store -/

/-- A resolved food entry within a meal, from types.ts. -/
structure MealItem where
  id : String
  foodId : String
  portionGrams : ℚ
  portionLabel : String
  nutrients : Nutrients
  confidence : String
  manuallyAdded : Bool
deriving DecidableEq

/-- A persisted meal, from types.ts. -/
structure Meal where
  id : String
  timestamp : LocalDateTime
  items : List MealItem
  totalNutrients : Nutrients
  mealType : String
deriving DecidableEq

/-- Daily-target snapshot stored on a DailyLog. -/
structure NutritionTargets where
  calories : ℚ
  protein : ℚ
  carbs : ℚ
  fat : ℚ
  fiber : ℚ
  micros : List (String × String)
deriving DecidableEq

/-- Per-day record, keyed by the local date string. -/
structure DailyLog where
  date : String
  meals : List Meal
  totalNutrients : Nutrients
  targets : NutritionTargets
deriving DecidableEq

/-- User profile, reduced to the parts the aggregation engine reads. -/
structure UserProfile where
  name : String
  apiKey : String
  targets : NutritionTargets
deriving DecidableEq

/-- State of the Dexie database as the aggregation engine sees it. -/
structure Store where
  meals : List Meal
  dailyLogs : List DailyLog
  profile : Option UserProfile
deriving DecidableEq

/-- The store before any write. -/
def emptyStore : Store := { meals := [], dailyLogs := [], profile := none }

/-- Model of createDefaultTargets from services/db.ts. -/
def createDefaultTargets : NutritionTargets :=
  { calories := 2000, protein := 80, carbs := 250, fat := 60, fiber := 30, micros := [] }

/-- Model of createZeroNutrients from services/db.ts. -/
def createZeroNutrients : Nutrients :=
  { calories := 0, protein := 0, carbs := 0, fat := 0, fiber := 0,
    sourceDatabase := "Custom", micros := [] }

/-- First-occurrence deduplication, the behaviour of building a JS Set
from a list and spreading it back into an array. -/
def uniqueFirst (l : List String) : List String :=
  l.foldl (fun acc x => if x ∈ acc then acc else acc ++ [x]) []

/-- Model of sumNutrients from services/db.ts: calories re-rounded with
Math.round, macros combined with safeAdd, micros concatenated and
deduplicated, provenance taken from the left operand. -/
def sumNutrients (a b : Nutrients) : Nutrients :=
  { calories := ((jsRound (a.calories + b.calories) : ℤ) : ℚ)
    protein := safeAdd a.protein b.protein
    carbs := safeAdd a.carbs b.carbs
    fat := safeAdd a.fat b.fat
    fiber := safeAdd a.fiber b.fiber
    sourceDatabase := a.sourceDatabase
    micros := uniqueFirst (a.micros ++ b.micros) }

/-- Primary-key lookup in the dailyLogs table. -/
def findLog (s : Store) (key : String) : Option DailyLog :=
  s.dailyLogs.find? (fun l => l.date = key)

/-- Model of dailyLogs.put: replace the record with the same key, or
append a fresh one. -/
def putLog (logs : List DailyLog) (l : DailyLog) : List DailyLog :=
  if logs.any (fun x => x.date = l.date) then
    logs.map (fun x => if x.date = l.date then l else x)
  else logs ++ [l]

/-- Model of saveMeal from services/db.ts.  The meal is added to the
meals table and the log of the local-date key of the meal timestamp is
updated incrementally: an existing cached total absorbs the meal total
through sumNutrients, and a missing log is created with the meal total
verbatim and the profile (or default) targets.  Dexie add rejects a
duplicate primary key and the transaction then aborts leaving every
table unchanged, which is modelled as the identity. -/
def saveMeal (s : Store) (m : Meal) : Store :=
  if s.meals.any (fun x => x.id = m.id) then s
  else
    let dateStr := getLocalISOString m.timestamp
    let meals := s.meals ++ [m]
    match findLog s dateStr with
    | some log =>
      let newTotal := sumNutrients log.totalNutrients m.totalNutrients
      let log2 := { log with meals := log.meals ++ [m], totalNutrients := newTotal }
      { s with meals := meals, dailyLogs := putLog s.dailyLogs log2 }
    | none =>
      let targets := match s.profile with
        | some p => p.targets
        | none => createDefaultTargets
      let newLog : DailyLog := { date := dateStr, meals := [m],
                                 totalNutrients := m.totalNutrients, targets := targets }
      { s with meals := meals, dailyLogs := putLog s.dailyLogs newLog }

/-- The between-bounds filter of recalculateDailyLog: the meal timestamp
lies between the day start (00:00) and day end (23:59, as the source
millisecond bound 23:59:59.999 reads at minute granularity) of the given
date. -/
def inSameDay (ts date : LocalDateTime) : Bool :=
  let dayStart : LocalDateTime := { date with hour := 0, minute := 0 }
  let dayEnd : LocalDateTime := { date with hour := 23, minute := 59 }
  decide (toMinutes dayStart ≤ toMinutes ts) && decide (toMinutes ts ≤ toMinutes dayEnd)

/-- Ordering produced by the timestamp index when recalculateDailyLog
range-queries the meals table. -/
def byTimestamp (a b : Meal) : Prop := toMinutes a.timestamp ≤ toMinutes b.timestamp

instance : DecidableRel byTimestamp :=
  fun a b => Nat.decLe (toMinutes a.timestamp) (toMinutes b.timestamp)

/-- Model of recalculateDailyLog from services/db.ts: re-read every meal
of the civil day of the given date from the meals table (ordered by the
timestamp index), fold their totals with sumNutrients starting from the
zero record, and overwrite the daily log, keeping existing targets when
present. -/
def recalculateDailyLog (s : Store) (date : LocalDateTime) : Store :=
  let dateStr := getLocalISOString date
  let dayMeals := List.insertionSort byTimestamp
    (s.meals.filter (fun m => inSameDay m.timestamp date))
  let targets := match findLog s dateStr with
    | some l => l.targets
    | none => match s.profile with
      | some p => p.targets
      | none => createDefaultTargets
  let total := dayMeals.foldl (fun acc m => sumNutrients acc m.totalNutrients)
    createZeroNutrients
  let newLog : DailyLog := { date := dateStr, meals := dayMeals,
                             totalNutrients := total, targets := targets }
  { s with dailyLogs := putLog s.dailyLogs newLog }

/-- Model of deleteMeal from services/db.ts: a missing id returns without
touching anything; otherwise the meal is removed and the whole day is
recomputed from scratch. -/
def deleteMeal (s : Store) (mealId : String) : Store :=
  match s.meals.find? (fun m => m.id = mealId) with
  | none => s
  | some meal =>
    recalculateDailyLog
      { s with meals := s.meals.filter (fun m => ¬ m.id = mealId) }
      meal.timestamp

/-! ### Candidate items supplied by the AI producers -/

/-- One parsed element of the JSON array an AI response yields.  The
grams field records the parseFloat result, with gramsNaN modelling a
value whose digit-stripped string parses to NaN; the nutrient fields are
whatever numbers the model supplied (only the manual-entry path reads
them). -/
structure AIGuess where
  name : String
  grams : ℚ
  gramsNaN : Bool
  calories : ℚ
  protein : ℚ
  carbs : ℚ
  fat : ℚ
  fiber : ℚ
  micros : List String
deriving DecidableEq

/-- Portion resolution of CameraScanner.captureAndDetect: an unparseable
or non-positive grams value falls back to the default portion of the
first catalog match, or 100 when nothing matched. -/
def resolveGrams (g : AIGuess) (found : List FoodItem) : ℚ :=
  if g.gramsNaN ∨ g.grams ≤ 0 then
    match found with
    | f :: _ => f.defaultPortionGrams
    | [] => 100
  else g.grams

/-- Model of the detection loop of CameraScanner.captureAndDetect: each
candidate name is resolved against the catalog with searchFoods; a match
gets its nutrients recomputed by calculateNutrients (with the AI micros
spliced in) and an unmatched candidate is dropped.  A sanity-check throw
escapes the loop, modelled by Except. -/
def cameraDetectItems : List AIGuess → Except CalcError (List MealItem)
  | [] => .ok []
  | g :: rest =>
    let found := searchFoods g.name
    let grams := resolveGrams g found
    match found with
    | [] => cameraDetectItems rest
    | food :: _ =>
      match calculateNutrients food.id grams with
      | .error e => .error e
      | .ok n =>
        match cameraDetectItems rest with
        | .error e => .error e
        | .ok out =>
          .ok ({ id := "", foodId := food.id, portionGrams := grams
                 portionLabel := toString grams ++ "g " ++ food.name
                 nutrients := { n with micros := g.micros }
                 confidence := "high", manuallyAdded := false } :: out)

/-- Model of the item construction in ManualEntryModal.analyzeWithAI:
every AI element is mapped straight to a MealItem whose nutrients are the
AI-supplied numbers, tagged with AI provenance; the catalog is never
consulted. -/
def manualAnalyzeItems (raws : List AIGuess) : List MealItem :=
  raws.map (fun g =>
    { id := "", foodId := "ai_", portionGrams := g.grams
      portionLabel := toString g.grams ++ "g " ++ g.name
      nutrients := { calories := g.calories, protein := g.protein, carbs := g.carbs,
                     fat := g.fat, fiber := g.fiber, micros := g.micros,
                     sourceDatabase := "AI" }
      confidence := "medium", manuallyAdded := true })

/-! ### Derived notions used by the claims -/

/-- Integer-valued rational, the shape of a calories total produced by
the calculator or by sumNutrients. -/
def intMult (x : ℚ) : Prop := ∃ z : ℤ, x = (z : ℚ)

/-- Multiple of one hundredth, the integer domain safeAdd scales to. -/
def centMult (x : ℚ) : Prop := ∃ z : ℤ, x = (z : ℚ) / 100

/-- Nutrient records whose numbers live on the grid the drift-free
summation preserves exactly: integer calories and centigram macros. -/
def normalNut (n : Nutrients) : Prop :=
  intMult n.calories ∧ centMult n.protein ∧ centMult n.carbs ∧
  centMult n.fat ∧ centMult n.fiber

/-- Agreement of two totals as the aggregation claims compare them: all
five numeric fields equal and the micro annotation lists carrying the
same elements. -/
def nutrEquiv (a b : Nutrients) : Prop :=
  a.calories = b.calories ∧ a.protein = b.protein ∧ a.carbs = b.carbs ∧
  a.fat = b.fat ∧ a.fiber = b.fiber ∧ (∀ x, x ∈ a.micros ↔ x ∈ b.micros)

/-- Cached total along the incremental path: the first meal total is
stored verbatim by saveMeal and each later total is folded in with
sumNutrients. -/
def incTotal (l : List Nutrients) : Nutrients :=
  match l with
  | [] => createZeroNutrients
  | n :: rest => rest.foldl sumNutrients n

/-- Match predicate of the search claim, stated at the Prop level: every
token of the trimmed lowercased query occurs inside the lowercased name,
or a single alias contains every token. -/
def specMatchProp (query : String) (f : FoodItem) : Prop :=
  (∀ t ∈ splitWs (jsTrim (jsLower query)), t <:+: jsLower f.name) ∨
  (∃ al ∈ f.nameAliases, ∀ t ∈ splitWs (jsTrim (jsLower query)), t <:+: jsLower al)

instance (query : String) (f : FoodItem) : Decidable (specMatchProp query f) := by
  unfold specMatchProp
  infer_instance

/-- Per-gram Atwater expectation of a catalog entry. -/
def perGramExpected (f : FoodItem) : ℚ :=
  f.nutrientsPerGram.protein * 4 + f.nutrientsPerGram.carbs * 4 +
  f.nutrientsPerGram.fat * 9

/-- Slope condition on a catalog row: nonnegative calorie density whose
per-gram Atwater discrepancy stays below the fraction 373 / 2010 of the
calorie density.  Exactly this margin makes the 20-percent-or-20-kcal
tolerance absorb the worst-case rounding slack at every portion. -/
def atwaterSlopeOK (f : FoodItem) : Prop :=
  0 ≤ f.nutrientsPerGram.calories ∧
  2010 * |f.nutrientsPerGram.calories - perGramExpected f| ≤
    373 * f.nutrientsPerGram.calories

instance (f : FoodItem) : Decidable (atwaterSlopeOK f) := by
  unfold atwaterSlopeOK
  infer_instance

/-- Nonnegative per-gram coefficients of a catalog row. -/
def coeffsNonneg (f : FoodItem) : Prop :=
  0 ≤ f.nutrientsPerGram.calories ∧ 0 ≤ f.nutrientsPerGram.protein ∧
  0 ≤ f.nutrientsPerGram.carbs ∧ 0 ≤ f.nutrientsPerGram.fat ∧
  0 ≤ f.nutrientsPerGram.fiber

instance (f : FoodItem) : Decidable (coeffsNonneg f) := by
  unfold coeffsNonneg
  infer_instance

/-! ### Concrete objects referenced by individual claims -/

/-- The roti catalog entry. -/
def rotiFood : FoodItem := nutritionDbFoods.get ⟨0, by decide⟩

/-- The apple catalog entry, eleventh in catalog order. -/
def appleItem : FoodItem := nutritionDbFoods.get ⟨10, by decide⟩

/-- Record calculateNutrients is expected to return for 40 g of roti. -/
def rotiComputed : Nutrients :=
  { calories := 120, protein := 4, carbs := 24, fat := 2, fiber := 4,
    sourceDatabase := "IFCT", micros := [] }

/-- An AI candidate named Roti carrying nutrient numbers that disagree
with the catalog recomputation for its 40 g portion. -/
def rotiGuess : AIGuess :=
  { name := "Roti", grams := 40, gramsNaN := false, calories := 999,
    protein := 1, carbs := 2, fat := 3, fiber := 0, micros := [] }

/-- Meal total sitting off the centigram grid: protein 0.004. -/
def cexTotals : Nutrients :=
  { calories := 0, protein := 0.004, carbs := 0, fat := 0, fiber := 0,
    sourceDatabase := "IFCT", micros := [] }

/-- One-meal day whose cached total differs between the incremental and
the full-recompute path. -/
def cexMeal : Meal :=
  { id := "m1",
    timestamp := { year := 2024, month := 5, day := 2, hour := 9, minute := 30 },
    items := [], totalNutrients := cexTotals, mealType := "Breakfast" }

/-- Local instant fifteen minutes past midnight. -/
def c9Timestamp : LocalDateTime :=
  { year := 2024, month := 3, day := 10, hour := 0, minute := 15 }

/-- Meal logged at 00:15 local time. -/
def c9Meal : Meal :=
  { id := "mid1", timestamp := c9Timestamp, items := [],
    totalNutrients := createZeroNutrients, mealType := "Snack" }

/-- Normalized meal total contributing exactly 0.1 g protein. -/
def tenthProteinTotal : Nutrients :=
  { calories := 0, protein := 0.1, carbs := 0, fat := 0, fiber := 0,
    sourceDatabase := "IFCT", micros := [] }

/-- Shared timestamp of the hundred-meal scenario. -/
def c4Timestamp : LocalDateTime :=
  { year := 2024, month := 6, day := 1, hour := 8, minute := 0 }

/-- One of the hundred meals, indexed by a numeric id suffix. -/
def c4MealAt (i : ℕ) : Meal :=
  { id := "meal" ++ toString i, timestamp := c4Timestamp, items := [],
    totalNutrients := tenthProteinTotal, mealType := "Snack" }

/-- One hundred meals, each contributing exactly 0.1 g protein. -/
def c4Meals : List Meal := (List.range 100).map c4MealAt

/-- First meal of the two-meal witness day. -/
def w3MealA : Meal :=
  { id := "wa", timestamp := { year := 2024, month := 7, day := 4, hour := 8, minute := 0 },
    items := [],
    totalNutrients := { calories := 120, protein := 4, carbs := 24, fat := 2, fiber := 4,
                        sourceDatabase := "IFCT", micros := ["Iron: 1mg"] },
    mealType := "Breakfast" }

/-- Second meal of the two-meal witness day. -/
def w3MealB : Meal :=
  { id := "wb", timestamp := { year := 2024, month := 7, day := 4, hour := 13, minute := 30 },
    items := [],
    totalNutrients := { calories := 180, protein := 4.05, carbs := 39.2, fat := 0.5, fiber := 0.6,
                        sourceDatabase := "IFCT", micros := ["Calcium: 50mg", "Iron: 1mg"] },
    mealType := "Lunch" }

/-- Common civil day of the two-meal witness. -/
def w3Date : LocalDateTime :=
  { year := 2024, month := 7, day := 4, hour := 0, minute := 0 }

/-- Nutrients record the manual AI path builds verbatim from rotiGuess. -/
def aiVerbatimRecord : Nutrients :=
  { calories := 999, protein := 1, carbs := 2, fat := 3, fiber := 0,
    sourceDatabase := "AI", micros := [] }

/-- Meal populating the store of the missing-id deletion witness. -/
def c10Meal : Meal :=
  { id := "keepme",
    timestamp := { year := 2024, month := 8, day := 15, hour := 12, minute := 5 },
    items := [], totalNutrients := createZeroNutrients, mealType := "Lunch" }

/-- The dal catalog entry, second in catalog order. -/
def dalFood : FoodItem := nutritionDbFoods.get ⟨1, by decide⟩

/-! ### Helper lemmas -/

set_option maxRecDepth 10000

theorem mem_foldl_uniqueFirst (l : List String) (acc : List String) (x : String) :
    x ∈ l.foldl (fun acc y => if y ∈ acc then acc else acc ++ [y]) acc ↔
      x ∈ acc ∨ x ∈ l := by
  induction l generalizing acc with
  | nil => simp
  | cons y ys ih =>
    simp only [List.foldl_cons, ih]
    by_cases hy : y ∈ acc
    · simp [hy]
      constructor
      · tauto
      · rintro (h | h | h) <;> first | tauto | (subst h; tauto)
    · simp [hy, List.mem_append]
      tauto

theorem mem_uniqueFirst (l : List String) (x : String) :
    x ∈ uniqueFirst l ↔ x ∈ l := by
  unfold uniqueFirst
  rw [mem_foldl_uniqueFirst]
  simp

theorem find?_append_of_none {p : DailyLog → Bool} {l1 l2 : List DailyLog}
    (h : ∀ x ∈ l1, ¬ p x = true) :
    List.find? p (l1 ++ l2) = List.find? p l2 := by
  induction l1 with
  | nil => simp
  | cons y ys ih =>
    have hy : p y = false := by
      have := h y (by simp)
      simpa using this
    rw [List.cons_append]
    simp only [List.find?_cons, hy]
    exact ih (fun x hx => h x (by simp [hx]))

theorem find?_putLog (logs : List DailyLog) (l : DailyLog) (key : String)
    (hk : l.date = key) :
    List.find? (fun x => x.date = key) (putLog logs l) = some l := by
  unfold putLog
  by_cases hany : logs.any (fun x => x.date = l.date)
  · rw [if_pos hany]
    induction logs with
    | nil => simp at hany
    | cons y ys ih =>
      simp only [List.map_cons]
      by_cases hy : y.date = l.date
      · rw [if_pos hy]
        have hd : decide (l.date = key) = true := by simp [hk]
        simp only [List.find?_cons, hd]
      · rw [if_neg hy]
        have hd : decide (y.date = key) = false := by
          simp only [decide_eq_false_iff_not]
          intro hcon
          exact hy (hcon.trans hk.symm)
        simp only [List.find?_cons, hd]
        apply ih
        simp only [List.any_cons, Bool.or_eq_true, decide_eq_true_eq] at hany
        rcases hany with h | h
        · exact absurd h hy
        · simpa using h
  · rw [if_neg hany]
    rw [find?_append_of_none]
    · simp [hk]
    · intro x hx
      simp only [decide_eq_true_eq]
      intro hcon
      apply hany
      rw [List.any_eq_true]
      exact ⟨x, hx, by simp [hcon.trans hk.symm]⟩

theorem jsRound_intCast (z : ℤ) : jsRound ((z : ℚ)) = z := by
  unfold jsRound
  exact round_intCast z

theorem safeAdd_exact {a b : ℚ} (ha : centMult a) (hb : centMult b) :
    safeAdd a b = a + b := by
  obtain ⟨za, rfl⟩ := ha
  obtain ⟨zb, rfl⟩ := hb
  unfold safeAdd
  have h1 : (za : ℚ) / 100 * 100 = ((za : ℤ) : ℚ) := by
    ring
  have h2 : (zb : ℚ) / 100 * 100 = ((zb : ℤ) : ℚ) := by
    ring
  rw [h1, h2, jsRound_intCast, jsRound_intCast]
  push_cast
  ring

theorem centMult_add {a b : ℚ} (ha : centMult a) (hb : centMult b) :
    centMult (a + b) := by
  obtain ⟨za, rfl⟩ := ha
  obtain ⟨zb, rfl⟩ := hb
  exact ⟨za + zb, by push_cast; ring⟩

theorem intCast_add_round {a b : ℚ} (ha : intMult a) (hb : intMult b) :
    ((jsRound (a + b) : ℤ) : ℚ) = a + b := by
  obtain ⟨za, rfl⟩ := ha
  obtain ⟨zb, rfl⟩ := hb
  have : ((za : ℚ)) + ((zb : ℚ)) = (((za + zb : ℤ)) : ℚ) := by push_cast; ring
  rw [this, jsRound_intCast]

theorem intMult_add {a b : ℚ} (ha : intMult a) (hb : intMult b) :
    intMult (a + b) := by
  obtain ⟨za, rfl⟩ := ha
  obtain ⟨zb, rfl⟩ := hb
  exact ⟨za + zb, by push_cast; ring⟩

/-- On the normalized grid, sumNutrients is exact componentwise addition
and unions the micro lists. -/
theorem sumNutrients_normal {a b : Nutrients} (ha : normalNut a) (hb : normalNut b) :
    (sumNutrients a b).calories = a.calories + b.calories ∧
    (sumNutrients a b).protein = a.protein + b.protein ∧
    (sumNutrients a b).carbs = a.carbs + b.carbs ∧
    (sumNutrients a b).fat = a.fat + b.fat ∧
    (sumNutrients a b).fiber = a.fiber + b.fiber ∧
    normalNut (sumNutrients a b) ∧
    (∀ x, x ∈ (sumNutrients a b).micros ↔ x ∈ a.micros ∨ x ∈ b.micros) := by
  obtain ⟨hac, hap, hacb, haf, hafi⟩ := ha
  obtain ⟨hbc, hbp, hbcb, hbf, hbfi⟩ := hb
  refine ⟨intCast_add_round hac hbc, safeAdd_exact hap hbp, safeAdd_exact hacb hbcb,
    safeAdd_exact haf hbf, safeAdd_exact hafi hbfi, ?_, ?_⟩
  · refine ⟨?_, ?_, ?_, ?_, ?_⟩
    · show intMult ((jsRound (a.calories + b.calories) : ℤ) : ℚ)
      rw [intCast_add_round hac hbc]
      exact intMult_add hac hbc
    · show centMult (safeAdd a.protein b.protein)
      rw [safeAdd_exact hap hbp]
      exact centMult_add hap hbp
    · show centMult (safeAdd a.carbs b.carbs)
      rw [safeAdd_exact hacb hbcb]
      exact centMult_add hacb hbcb
    · show centMult (safeAdd a.fat b.fat)
      rw [safeAdd_exact haf hbf]
      exact centMult_add haf hbf
    · show centMult (safeAdd a.fiber b.fiber)
      rw [safeAdd_exact hafi hbfi]
      exact centMult_add hafi hbfi
  · intro x
    show x ∈ uniqueFirst (a.micros ++ b.micros) ↔ _
    rw [mem_uniqueFirst]
    simp [List.mem_append]

/-- Folding sumNutrients over normalized records computes the exact
componentwise sums and the union of the micro lists. -/
theorem foldl_sumNutrients_spec (l : List Nutrients) (init : Nutrients)
    (hinit : normalNut init) (hl : ∀ n ∈ l, normalNut n) :
    normalNut (l.foldl sumNutrients init) ∧
    (l.foldl sumNutrients init).calories = init.calories + (l.map Nutrients.calories).sum ∧
    (l.foldl sumNutrients init).protein = init.protein + (l.map Nutrients.protein).sum ∧
    (l.foldl sumNutrients init).carbs = init.carbs + (l.map Nutrients.carbs).sum ∧
    (l.foldl sumNutrients init).fat = init.fat + (l.map Nutrients.fat).sum ∧
    (l.foldl sumNutrients init).fiber = init.fiber + (l.map Nutrients.fiber).sum ∧
    (∀ x, x ∈ (l.foldl sumNutrients init).micros ↔ x ∈ init.micros ∨ ∃ n ∈ l, x ∈ n.micros) := by
  induction l generalizing init with
  | nil => simp [hinit]
  | cons n rest ih =>
    have hn : normalNut n := hl n (by simp)
    have hrest : ∀ x ∈ rest, normalNut x := fun x hx => hl x (by simp [hx])
    have hs := sumNutrients_normal hinit hn
    obtain ⟨hc, hp, hcb, hf, hfi, hnorm, hmic⟩ := hs
    have := ih (sumNutrients init n) hnorm hrest
    obtain ⟨inorm, ic, ip, icb, ifa, ifi, imic⟩ := this
    refine ⟨inorm, ?_, ?_, ?_, ?_, ?_, ?_⟩
    · simp only [List.foldl_cons, List.map_cons, List.sum_cons]
      rw [ic, hc]
      ring
    · simp only [List.foldl_cons, List.map_cons, List.sum_cons]
      rw [ip, hp]
      ring
    · simp only [List.foldl_cons, List.map_cons, List.sum_cons]
      rw [icb, hcb]
      ring
    · simp only [List.foldl_cons, List.map_cons, List.sum_cons]
      rw [ifa, hf]
      ring
    · simp only [List.foldl_cons, List.map_cons, List.sum_cons]
      rw [ifi, hfi]
      ring
    · intro x
      simp only [List.foldl_cons]
      rw [imic x, hmic x]
      simp only [List.mem_cons]
      constructor
      · rintro ((h | h) | ⟨n2, hn2, hx⟩)
        · exact Or.inl h
        · exact Or.inr ⟨n, Or.inl rfl, h⟩
        · exact Or.inr ⟨n2, Or.inr hn2, hx⟩
      · rintro (h | ⟨n2, (rfl | hn2), hx⟩)
        · exact Or.inl (Or.inl h)
        · exact Or.inl (Or.inr hx)
        · exact Or.inr ⟨n2, hn2, hx⟩

theorem normalNut_zero : normalNut createZeroNutrients := by
  unfold normalNut intMult centMult createZeroNutrients
  refine ⟨⟨0, by norm_num⟩, ⟨0, by norm_num⟩, ⟨0, by norm_num⟩, ⟨0, by norm_num⟩, ⟨0, by norm_num⟩⟩

/-- The incremental total (first record verbatim, then folded) and a
fold from the zero record agree on any two permutations of the same
normalized nonempty record list, numerics exactly and micros as sets. -/
theorem incTotal_equiv_foldZero (l1 l2 : List Nutrients)
    (hperm : l1.Perm l2) (hne : l1 ≠ [])
    (hnorm : ∀ n ∈ l1, normalNut n) :
    nutrEquiv (incTotal l1) (l2.foldl sumNutrients createZeroNutrients) := by
  obtain ⟨n0, rest, rfl⟩ := List.exists_cons_of_ne_nil hne
  have hn0 : normalNut n0 := hnorm n0 (by simp)
  have hrest : ∀ n ∈ rest, normalNut n := fun n hn => hnorm n (by simp [hn])
  have h1 := foldl_sumNutrients_spec rest n0 hn0 hrest
  have hnorm2 : ∀ n ∈ l2, normalNut n := fun n hn => hnorm n (hperm.mem_iff.mpr hn)
  have h2 := foldl_sumNutrients_spec l2 createZeroNutrients normalNut_zero hnorm2
  obtain ⟨-, c1, p1, cb1, f1, fi1, m1⟩ := h1
  obtain ⟨-, c2, p2, cb2, f2, fi2, m2⟩ := h2
  have hsum : ∀ g : Nutrients → ℚ,
      ((n0 :: rest).map g).sum = (l2.map g).sum := by
    intro g
    exact (hperm.map g).sum_eq
  have hzero : createZeroNutrients.calories = 0 ∧ createZeroNutrients.protein = 0 ∧
      createZeroNutrients.carbs = 0 ∧ createZeroNutrients.fat = 0 ∧
      createZeroNutrients.fiber = 0 ∧ createZeroNutrients.micros = [] := by
    unfold createZeroNutrients
    exact ⟨rfl, rfl, rfl, rfl, rfl, rfl⟩
  refine ⟨?_, ?_, ?_, ?_, ?_, ?_⟩
  · show (incTotal (n0 :: rest)).calories = _
    unfold incTotal
    rw [c1, c2, hzero.1, ← hsum Nutrients.calories]
    simp
  · show (incTotal (n0 :: rest)).protein = _
    unfold incTotal
    rw [p1, p2, hzero.2.1, ← hsum Nutrients.protein]
    simp
  · show (incTotal (n0 :: rest)).carbs = _
    unfold incTotal
    rw [cb1, cb2, hzero.2.2.1, ← hsum Nutrients.carbs]
    simp
  · show (incTotal (n0 :: rest)).fat = _
    unfold incTotal
    rw [f1, f2, hzero.2.2.2.1, ← hsum Nutrients.fat]
    simp
  · show (incTotal (n0 :: rest)).fiber = _
    unfold incTotal
    rw [fi1, fi2, hzero.2.2.2.2.1, ← hsum Nutrients.fiber]
    simp
  · intro x
    show x ∈ (incTotal (n0 :: rest)).micros ↔ _
    unfold incTotal
    rw [m1 x, m2 x, hzero.2.2.2.2.2]
    simp only [List.not_mem_nil, false_or]
    constructor
    · rintro (h | ⟨n2, hn2, hx⟩)
      · exact ⟨n0, hperm.mem_iff.mp (by simp), h⟩
      · exact ⟨n2, hperm.mem_iff.mp (by simp [hn2]), hx⟩
    · rintro ⟨n2, hn2, hx⟩
      have : n2 ∈ n0 :: rest := hperm.mem_iff.mpr hn2
      rcases List.mem_cons.mp this with rfl | hmem
      · exact Or.inl hx
      · exact Or.inr ⟨n2, hmem, hx⟩

/-- Invariant of the incremental add path: starting from a store holding
exactly the day log built so far, folding further same-day meals with
fresh ids appends them to both tables and folds their totals into the
cached total. -/
theorem saveMeal_fold_aux (k : String) (tg : NutritionTargets) (rest : List Meal) :
    ∀ (acc : List Meal) (T : Nutrients),
    (∀ m ∈ rest, getLocalISOString m.timestamp = k) →
    (∀ m ∈ rest, ∀ a ∈ acc, ¬ a.id = m.id) →
    ((rest.map (fun m => m.id)).Nodup) →
    rest.foldl saveMeal
      { meals := acc, dailyLogs := [{ date := k, meals := acc, totalNutrients := T, targets := tg }],
        profile := none } =
      { meals := acc ++ rest,
        dailyLogs := [{ date := k, meals := acc ++ rest,
                        totalNutrients := rest.foldl (fun t m => sumNutrients t m.totalNutrients) T,
                        targets := tg }],
        profile := none } := by
  induction rest with
  | nil =>
    intro acc T _ _ _
    simp
  | cons m ms ih =>
    intro acc T hday hdisj hnodup
    rw [List.foldl_cons]
    have hstep : saveMeal
        { meals := acc, dailyLogs := [{ date := k, meals := acc, totalNutrients := T, targets := tg }],
          profile := none } m =
        { meals := acc ++ [m],
          dailyLogs := [{ date := k, meals := acc ++ [m],
                          totalNutrients := sumNutrients T m.totalNutrients, targets := tg }],
          profile := none } := by
      unfold saveMeal
      have hanyid : (acc.any (fun x => x.id = m.id)) = false := by
        rw [List.any_eq_false]
        intro a ha
        simpa using hdisj m (by simp) a ha
      rw [hanyid]
      simp only [Bool.false_eq_true, if_false]
      have hkey : getLocalISOString m.timestamp = k := hday m (by simp)
      rw [hkey]
      have hfind : findLog
          { meals := acc, dailyLogs := [{ date := k, meals := acc, totalNutrients := T, targets := tg }],
            profile := none } k =
          some { date := k, meals := acc, totalNutrients := T, targets := tg } := by
        unfold findLog
        simp
      rw [hfind]
      unfold putLog
      simp
    rw [hstep]
    have hnodup2 : ((ms.map (fun m => m.id)).Nodup) ∧
        ∀ x ∈ ms, ¬ m.id = x.id := by
      simp only [List.map_cons, List.nodup_cons] at hnodup
      refine ⟨hnodup.2, fun x hx hcon => hnodup.1 ?_⟩
      rw [hcon]
      exact List.mem_map.mpr ⟨x, hx, rfl⟩
    have hout := ih (acc ++ [m]) (sumNutrients T m.totalNutrients)
      (fun x hx => hday x (by simp [hx]))
      (fun x hx a ha => by
        rcases List.mem_append.mp ha with h | h
        · exact hdisj x (by simp [hx]) a h
        · have ham : a = m := by simpa using h
          subst ham
          exact hnodup2.2 x hx)
      hnodup2.1
    rw [hout]
    simp [List.append_assoc]

/-- Folding saveMeal over a nonempty same-day batch with fresh ids from
the empty store produces exactly one daily log: the meals in insertion
order under the local-day key, with the incremental cached total. -/
theorem saveMeal_fold_state (ms : List Meal) (k : String)
    (hday : ∀ m ∈ ms, getLocalISOString m.timestamp = k)
    (hids : (ms.map (fun m => m.id)).Nodup)
    (hne : ms ≠ []) :
    ms.foldl saveMeal emptyStore =
      { meals := ms,
        dailyLogs := [{ date := k, meals := ms,
                        totalNutrients := incTotal (ms.map (fun m => m.totalNutrients)),
                        targets := createDefaultTargets }],
        profile := none } := by
  obtain ⟨m0, rest, rfl⟩ := List.exists_cons_of_ne_nil hne
  rw [List.foldl_cons]
  have hstep : saveMeal emptyStore m0 =
      { meals := [m0],
        dailyLogs := [{ date := k, meals := [m0], totalNutrients := m0.totalNutrients,
                        targets := createDefaultTargets }],
        profile := none } := by
    unfold saveMeal emptyStore findLog putLog
    simp [hday m0 (by simp)]
  rw [hstep]
  have hnodup2 : ((rest.map (fun m => m.id)).Nodup) ∧
      ∀ x ∈ rest, ¬ m0.id = x.id := by
    simp only [List.map_cons, List.nodup_cons] at hids
    refine ⟨hids.2, fun x hx hcon => hids.1 ?_⟩
    rw [hcon]
    exact List.mem_map.mpr ⟨x, hx, rfl⟩
  have hout := saveMeal_fold_aux k createDefaultTargets rest [m0] m0.totalNutrients
    (fun x hx => hday x (by simp [hx]))
    (fun x hx a ha => by
      have ham : a = m0 := by simpa using ha
      subst ham
      exact hnodup2.2 x hx)
    hnodup2.1
  rw [hout]
  have hmeals : [m0] ++ rest = m0 :: rest := by simp
  rw [hmeals]
  have htot : rest.foldl (fun t m => sumNutrients t m.totalNutrients) m0.totalNutrients =
      incTotal ((m0 :: rest).map (fun m => m.totalNutrients)) := by
    unfold incTotal
    simp only [List.map_cons]
    rw [List.foldl_map]
  rw [htot]

/-- A valid timestamp with the same civil components as the queried date
falls inside the between-bounds window of the recompute query. -/
theorem inSameDay_of_components (ts d : LocalDateTime)
    (hy : ts.year = d.year) (hm : ts.month = d.month) (hd : ts.day = d.day)
    (hv : validTime ts) :
    inSameDay ts d = true := by
  unfold inSameDay
  simp only [Bool.and_eq_true, decide_eq_true_eq]
  unfold toMinutes
  simp only
  rw [hy, hm, hd]
  obtain ⟨h1, h2⟩ := hv
  omega

/-- Claim C3, amended.  For meals of one civil day with distinct ids,
valid timestamps and cached totals on the normalized grid (integer
calories, centigram macros), the incremental day total reached by adding
the meals in any order agrees with the total the deleteMeal recompute
path derives for the same store: the five numeric fields coincide and
the micro lists carry the same elements.  Off-grid totals break the
equality (see the counterexample), so the agreement is stated up to the
grid hypothesis and micros are compared as sets because the two paths
order them differently. -/
theorem incremental_recompute_agree (d : LocalDateTime) (ms ms1 : List Meal)
    (hperm : ms1.Perm ms)
    (hids : (ms.map (fun m => m.id)).Nodup)
    (hday : ∀ m ∈ ms, m.timestamp.year = d.year ∧ m.timestamp.month = d.month ∧
      m.timestamp.day = d.day)
    (hvalid : ∀ m ∈ ms, validTime m.timestamp)
    (hnorm : ∀ m ∈ ms, normalNut m.totalNutrients)
    (hne : ms ≠ []) :
    ∃ logInc logRec,
      findLog (ms1.foldl saveMeal emptyStore) (getLocalISOString d) = some logInc ∧
      findLog (recalculateDailyLog (ms1.foldl saveMeal emptyStore) d)
        (getLocalISOString d) = some logRec ∧
      nutrEquiv logInc.totalNutrients logRec.totalNutrients := by
  set k := getLocalISOString d with hk
  have hday1 : ∀ m ∈ ms1, getLocalISOString m.timestamp = k := by
    intro m hm
    have := hday m (hperm.mem_iff.mp hm)
    unfold getLocalISOString dateKeyString
    rw [this.1, this.2.1, this.2.2, hk]
    rfl
  have hids1 : (ms1.map (fun m => m.id)).Nodup := (hperm.map _).nodup_iff.mpr hids
  have hne1 : ms1 ≠ [] := by
    intro hcon
    exact hne (List.eq_nil_of_length_eq_zero (by rw [← hperm.length_eq, hcon]; rfl))
  have hfold := saveMeal_fold_state ms1 k hday1 hids1 hne1
  set logInc : DailyLog :=
    { date := k, meals := ms1,
      totalNutrients := incTotal (ms1.map (fun m => m.totalNutrients)),
      targets := createDefaultTargets } with hlogInc
  have hfindInc : findLog (ms1.foldl saveMeal emptyStore) k = some logInc := by
    rw [hfold]
    unfold findLog
    simp [hlogInc]
  have hfilter : (ms1.filter (fun m => inSameDay m.timestamp d)) = ms1 := by
    rw [List.filter_eq_self]
    intro m hm
    have := hday m (hperm.mem_iff.mp hm)
    exact inSameDay_of_components m.timestamp d this.1 this.2.1 this.2.2
      (hvalid m (hperm.mem_iff.mp hm))
  set sorted := List.insertionSort byTimestamp ms1 with hsorted
  have hpermSort : sorted.Perm ms1 := List.perm_insertionSort byTimestamp ms1
  set logRec : DailyLog :=
    { date := k, meals := sorted,
      totalNutrients := sorted.foldl (fun acc m => sumNutrients acc m.totalNutrients)
        createZeroNutrients,
      targets := logInc.targets } with hlogRec
  have hrecalc : recalculateDailyLog (ms1.foldl saveMeal emptyStore) d =
      { meals := ms1, dailyLogs := putLog [logInc] logRec, profile := none } := by
    rw [hfold]
    unfold recalculateDailyLog
    simp only [← hk]
    have hfind2 : findLog
        { meals := ms1, dailyLogs := [logInc], profile := none } k = some logInc := by
      unfold findLog
      simp [hlogInc]
    rw [hfind2]
    simp only [hfilter, ← hsorted, ← hlogRec]
  have hfindRec : findLog (recalculateDailyLog (ms1.foldl saveMeal emptyStore) d) k =
      some logRec := by
    rw [hrecalc]
    unfold findLog
    exact find?_putLog [logInc] logRec k rfl
  refine ⟨logInc, logRec, hfindInc, hfindRec, ?_⟩
  have hnorm1 : ∀ n ∈ ms1.map (fun m => m.totalNutrients), normalNut n := by
    intro n hn
    obtain ⟨m, hm, rfl⟩ := List.mem_map.mp hn
    exact hnorm m (hperm.mem_iff.mp hm)
  have hneMap : ms1.map (fun m => m.totalNutrients) ≠ [] := by
    intro hcon
    exact hne1 (List.map_eq_nil_iff.mp hcon)
  have hpermMap : (ms1.map (fun m => m.totalNutrients)).Perm
      (sorted.map (fun m => m.totalNutrients)) := (hpermSort.map _).symm
  have := incTotal_equiv_foldZero (ms1.map (fun m => m.totalNutrients))
    (sorted.map (fun m => m.totalNutrients)) hpermMap hneMap hnorm1
  have hfoldmap : (sorted.map (fun m => m.totalNutrients)).foldl sumNutrients
      createZeroNutrients =
      sorted.foldl (fun acc m => sumNutrients acc m.totalNutrients) createZeroNutrients := by
    rw [List.foldl_map]
  rw [hfoldmap] at this
  exact this

/-- Claim C3, counterexample.  A one-meal day whose cached total carries
protein 0.004 (off the centigram grid): the incremental path stores the
total verbatim, while the full-scratch recompute path of deleteMeal
rounds it away, so the two day totals differ. -/
theorem incremental_recompute_counterexample :
    (findLog (saveMeal emptyStore cexMeal) ("2024-05-02")).map
        (fun l => l.totalNutrients.protein) = some 0.004 ∧
    (findLog (recalculateDailyLog (saveMeal emptyStore cexMeal) cexMeal.timestamp)
        ("2024-05-02")).map (fun l => l.totalNutrients.protein) = some 0 ∧
    (0.004 : ℚ) ≠ 0 := by
  refine ⟨?_, ?_, by norm_num⟩
  · with_unfolding_all decide
  · with_unfolding_all decide

theorem safeAdd_tenth {x : ℚ} {j : ℤ} (hx : x = (j : ℚ) / 10) :
    safeAdd x (0.1 : ℚ) = ((j + 1 : ℤ) : ℚ) / 10 := by
  have h1 : centMult x := ⟨10 * j, by rw [hx]; push_cast; ring⟩
  have h2 : centMult (0.1 : ℚ) := ⟨10, by norm_num⟩
  rw [safeAdd_exact h1 h2, hx]
  push_cast
  ring

theorem foldl_sum_protein_tenths (l : List Nutrients) :
    ∀ (init : Nutrients) (j : ℤ), init.protein = (j : ℚ) / 10 →
    (∀ n ∈ l, n.protein = 0.1) →
    (l.foldl sumNutrients init).protein = ((j + l.length : ℤ) : ℚ) / 10 := by
  induction l with
  | nil =>
    intro init j hj _
    simpa using hj
  | cons n rest ih =>
    intro init j hj hl
    rw [List.foldl_cons]
    have hstep : (sumNutrients init n).protein = ((j + 1 : ℤ) : ℚ) / 10 := by
      show safeAdd init.protein n.protein = _
      rw [hl n (by simp)]
      exact safeAdd_tenth hj
    have := ih (sumNutrients init n) (j + 1) hstep
      (fun x hx => hl x (by simp [hx]))
    rw [this]
    push_cast
    simp only [List.length_cons]
    push_cast
    ring

/-- Claim C4.  Folding one hundred same-day meals with fresh ids, each
contributing exactly 0.1 g protein, through saveMeal yields a cached
daily total of exactly 10 g protein: safeAdd scales to hundredths,
rounds, adds integers and divides back, so no drift accumulates. -/
theorem hundred_meals_protein_exact (ms : List Meal) (k : String)
    (hlen : ms.length = 100)
    (hids : (ms.map (fun m => m.id)).Nodup)
    (hday : ∀ m ∈ ms, getLocalISOString m.timestamp = k)
    (hprot : ∀ m ∈ ms, m.totalNutrients.protein = 0.1) :
    ∀ log, findLog (ms.foldl saveMeal emptyStore) k = some log →
      log.totalNutrients.protein = 10 := by
  intro log hlog
  have hne : ms ≠ [] := by
    intro hcon
    rw [hcon] at hlen
    simp at hlen
  rw [saveMeal_fold_state ms k hday hids hne] at hlog
  unfold findLog at hlog
  simp at hlog
  obtain ⟨m0, rest, rfl⟩ := List.exists_cons_of_ne_nil hne
  have hp0 : m0.totalNutrients.protein = (1 : ℚ) / 10 := by
    have := hprot m0 (by simp)
    rw [this]
    norm_num
  have hint : (incTotal ((m0 :: rest).map (fun m => m.totalNutrients))).protein = 10 := by
    unfold incTotal
    simp only [List.map_cons]
    have hrest : ∀ n ∈ rest.map (fun m => m.totalNutrients), n.protein = 0.1 := by
      intro n hn
      obtain ⟨m, hm, rfl⟩ := List.mem_map.mp hn
      exact hprot m (by simp [hm])
    have hlen99 : rest.length = 99 := by
      simp only [List.length_cons] at hlen
      omega
    have := foldl_sum_protein_tenths (rest.map (fun m => m.totalNutrients))
      m0.totalNutrients 1 (by rw [hp0]; norm_num) hrest
    rw [this]
    rw [List.length_map, hlen99]
    norm_num
  rw [← hlog]
  exact hint

theorem incremental_recompute_agree_witness :
    ∃ logInc logRec,
      findLog ([w3MealB, w3MealA].foldl saveMeal emptyStore)
        (getLocalISOString w3Date) = some logInc ∧
      findLog (recalculateDailyLog ([w3MealB, w3MealA].foldl saveMeal emptyStore) w3Date)
        (getLocalISOString w3Date) = some logRec ∧
      nutrEquiv logInc.totalNutrients logRec.totalNutrients := by
  refine incremental_recompute_agree w3Date [w3MealA, w3MealB] [w3MealB, w3MealA]
    (by with_unfolding_all decide)
    (by with_unfolding_all decide)
    (by with_unfolding_all decide)
    (by with_unfolding_all decide)
    ?_
    (by with_unfolding_all decide)
  intro m hm
  have hcases : m = w3MealA ∨ m = w3MealB := by simpa using hm
  rcases hcases with rfl | rfl
  · exact ⟨⟨120, by norm_num [w3MealA]⟩, ⟨400, by norm_num [w3MealA]⟩,
      ⟨2400, by norm_num [w3MealA]⟩, ⟨200, by norm_num [w3MealA]⟩,
      ⟨400, by norm_num [w3MealA]⟩⟩
  · exact ⟨⟨180, by norm_num [w3MealB]⟩, ⟨405, by norm_num [w3MealB]⟩,
      ⟨3920, by norm_num [w3MealB]⟩, ⟨50, by norm_num [w3MealB]⟩,
      ⟨60, by norm_num [w3MealB]⟩⟩

theorem hundred_meals_protein_exact_witness :
    (findLog (c4Meals.foldl saveMeal emptyStore) ("2024-06-01")).map
      (fun l => l.totalNutrients.protein) = some 10 := by
  have hsome : (findLog (c4Meals.foldl saveMeal emptyStore) ("2024-06-01")).isSome = true := by
    with_unfolding_all decide
  obtain ⟨log, hlog⟩ := Option.isSome_iff_exists.mp hsome
  have h10 := hundred_meals_protein_exact c4Meals ("2024-06-01")
    (by with_unfolding_all decide) (by with_unfolding_all decide)
    (by with_unfolding_all decide) (by with_unfolding_all decide) log hlog
  rw [hlog]
  simp [h10]

/-- Claim C10.  Deleting an id absent from the meals table leaves the
whole store untouched and raises nothing: no meal is removed and no
daily log is recomputed or rewritten. -/
theorem deleteMeal_missing_id_noop (s : Store) (mid : String)
    (h : ∀ m ∈ s.meals, ¬ m.id = mid) :
    deleteMeal s mid = s := by
  unfold deleteMeal
  have hfind : s.meals.find? (fun m => m.id = mid) = none := by
    rw [List.find?_eq_none]
    intro x hx
    simpa using h x hx
  rw [hfind]

theorem deleteMeal_missing_id_noop_witness :
    deleteMeal (saveMeal emptyStore c10Meal) ("absent_id") =
      saveMeal emptyStore c10Meal :=
  deleteMeal_missing_id_noop (saveMeal emptyStore c10Meal) ("absent_id")
    (by with_unfolding_all decide)

/-- Claim C9.  saveMeal files a meal under the local-day key produced by
getLocalISOString from the wall-clock components of the meal timestamp;
in particular a meal at 00:15 local time lands on that local calendar
day, while the UTC-normalized date of the same instant at offset +330
minutes is the previous day. -/
theorem saveMeal_local_day_key (s : Store) (m : Meal)
    (hfresh : ∀ x ∈ s.meals, ¬ x.id = m.id) :
    (∃ log, findLog (saveMeal s m) (getLocalISOString m.timestamp) = some log ∧
        m ∈ log.meals) ∧
    getLocalISOString c9Timestamp = "2024-03-10" ∧
    utcDateString c9Timestamp 330 = "2024-03-09" := by
  refine ⟨?_, by with_unfolding_all decide, by with_unfolding_all decide⟩
  unfold saveMeal
  have hany : (s.meals.any (fun x => x.id = m.id)) = false := by
    rw [List.any_eq_false]
    intro x hx
    simpa using hfresh x hx
  rw [hany]
  simp only [Bool.false_eq_true, if_false]
  cases hfind : findLog s (getLocalISOString m.timestamp) with
  | some log =>
    have hdate : log.date = getLocalISOString m.timestamp := by
      unfold findLog at hfind
      have := List.find?_some hfind
      simpa using this
    refine ⟨{ log with meals := log.meals ++ [m], totalNutrients := sumNutrients log.totalNutrients m.totalNutrients }, ?_, by simp⟩
    unfold findLog
    simp only
    exact find?_putLog s.dailyLogs _ _ hdate
  | none =>
    refine ⟨{ date := getLocalISOString m.timestamp, meals := [m], totalNutrients := m.totalNutrients, targets := (match s.profile with | some p => p.targets | none => createDefaultTargets) }, ?_, by simp⟩
    unfold findLog
    simp only
    exact find?_putLog s.dailyLogs _ _ rfl

theorem saveMeal_local_day_key_witness :
    (∃ log, findLog (saveMeal emptyStore c9Meal) (getLocalISOString c9Meal.timestamp) =
        some log ∧ c9Meal ∈ log.meals) ∧
    getLocalISOString c9Timestamp = "2024-03-10" ∧
    utcDateString c9Timestamp 330 = "2024-03-09" :=
  saveMeal_local_day_key emptyStore c9Meal (by with_unfolding_all decide)

/-- Claim C7.  On the roti catalog entry with a 40 gram portion the
calculator returns exactly 120 kcal and macros 4.0, 24.0, 2.0, 4.0; and
the binary floating-point products of the stored per-gram doubles with
40, fed through the same rounding policy, produce exactly the same
numbers. -/
theorem calculateNutrients_roti_concrete :
    calculateNutrients ("ifct_001") 40 = .ok rotiComputed ∧
    ((jsRound (fl64 ((fl64 3.0) * (fl64 40))) : ℤ) : ℚ) = 120 ∧
    round1 (fl64 ((fl64 0.10) * (fl64 40))) = 4 ∧
    round1 (fl64 ((fl64 0.60) * (fl64 40))) = 24 ∧
    round1 (fl64 ((fl64 0.05) * (fl64 40))) = 2 := by
  refine ⟨?_, ?_, ?_, ?_, ?_⟩ <;> with_unfolding_all decide

/-- Claim C2, code evaluated at the failing input.  The manual-entry AI
path never consults the catalog: for the candidate named Roti, which
searchFoods resolves to the roti entry, the built MealItem carries the
AI-supplied numbers verbatim under the AI provenance tag, although the
calculator recomputation for the same portion returns 120 kcal. -/
theorem manualEntry_ai_verbatim_despite_match :
    searchFoods (rotiGuess.name) ≠ [] ∧
    (searchFoods (rotiGuess.name)).head? = some rotiFood ∧
    (manualAnalyzeItems [rotiGuess]).map (fun i => i.nutrients) = [aiVerbatimRecord] ∧
    calculateNutrients (rotiFood.id) (rotiGuess.grams) = .ok rotiComputed ∧
    aiVerbatimRecord.calories ≠ rotiComputed.calories ∧
    aiVerbatimRecord.sourceDatabase = "AI" := by
  refine ⟨?_, ?_, ?_, ?_, ?_, ?_⟩ <;> with_unfolding_all decide

/-- Claim C6.  calculateNutrients fails with the not-found error on any
id missing from the catalog (the id check runs first), fails with the
invalid-portion error on a known id with a non-positive portion, and on
a known id with positive portion raises neither: any failure left is the
data-integrity error of the sanity check. -/
theorem calculateNutrients_error_taxonomy :
    (∀ fid g, findFood fid = none → calculateNutrients fid g = .error (.notFound fid)) ∧
    calculateNutrients ("unknown_id") 100 = .error (.notFound ("unknown_id")) ∧
    (∀ fid food g, findFood fid = some food → g ≤ 0 →
      calculateNutrients fid g = .error (.invalidPortion g)) ∧
    (∀ fid food g, findFood fid = some food → 0 < g →
      ∀ e, calculateNutrients fid g = .error e → ∃ nm, e = .dataIntegrity nm) := by
  refine ⟨?_, by with_unfolding_all decide, ?_, ?_⟩
  · intro fid g h
    unfold calculateNutrients
    rw [h]
  · intro fid food g h hle
    unfold calculateNutrients
    rw [h]
    simp only [if_pos hle]
  · intro fid food g h hpos e
    unfold calculateNutrients
    rw [h]
    dsimp only
    rw [if_neg (not_le.mpr hpos)]
    by_cases hv : verifySanity (rawNutrients food g) = .failed
    · rw [if_pos hv]
      intro he
      simp only [Except.error.injEq] at he
      exact ⟨food.name, he.symm⟩
    · rw [if_neg hv]
      intro he
      simp at he

theorem calculateNutrients_error_taxonomy_witness :
    calculateNutrients ("nonexistent") 42 = .error (.notFound ("nonexistent")) ∧
    calculateNutrients ("ifct_001") (-5) = .error (.invalidPortion (-5)) ∧
    calculateNutrients ("ifct_002") 150 ≠ .error (.notFound ("ifct_002")) := by
  refine ⟨?_, ?_, ?_⟩
  · exact calculateNutrients_error_taxonomy.1 ("nonexistent") 42 (by with_unfolding_all decide)
  · exact calculateNutrients_error_taxonomy.2.2.1 ("ifct_001") rotiFood (-5)
      (by with_unfolding_all decide) (by norm_num)
  · intro hcon
    obtain ⟨nm, hnm⟩ := calculateNutrients_error_taxonomy.2.2.2 ("ifct_002") dalFood 150
      (by with_unfolding_all decide) (by norm_num) _ hcon
    cases hnm

/-- Claim C8, counterexample.  The single-letter query matches all
twelve catalog entries, so the ten-entry cap makes searchFoods drop the
apple entry although it satisfies the token-containment predicate: the
result is not exactly the matching set. -/
theorem searchFoods_cap_counterexample :
    appleItem ∈ nutritionDbFoods ∧ specMatchProp ("a") appleItem ∧
    appleItem ∉ searchFoods ("a") ∧ jsTrim (jsLower ("a")) ≠ [] := by
  refine ⟨?_, ?_, ?_, ?_⟩ <;> with_unfolding_all decide

/-- Claim C8, amended.  An empty or whitespace-only query returns the
empty list; otherwise the result is the first at most ten catalog
entries, in catalog order, among exactly those whose lowercased name
contains every whitespace token of the lowercased query or one of whose
lowercased aliases contains every token.  (The original claim said the
result is exactly the matching set, which the cap falsifies.) -/
theorem searchFoods_spec (query : String) :
    (jsTrim (jsLower query) = [] → searchFoods query = []) ∧
    (searchFoods query).length ≤ 10 ∧
    (jsTrim (jsLower query) ≠ [] →
      searchFoods query =
        (nutritionDbFoods.filter (foodMatches (splitWs (jsTrim (jsLower query))))).take 10 ∧
      ∀ f ∈ nutritionDbFoods,
        (foodMatches (splitWs (jsTrim (jsLower query))) f = true ↔ specMatchProp query f)) := by
  refine ⟨?_, ?_, ?_⟩
  · intro h
    unfold searchFoods
    rw [h]
    rfl
  · unfold searchFoods
    by_cases h : (jsTrim (jsLower query)).isEmpty
    · simp [h]
    · simp only [h, Bool.false_eq_true, if_false]
      exact List.length_take_le 10 _
  · intro hne
    have hfalse : (jsTrim (jsLower query)).isEmpty = false := by
      rw [List.isEmpty_eq_false_iff_exists_mem]
      obtain ⟨c, rest, hcr⟩ := List.exists_cons_of_ne_nil hne
      exact ⟨c, by rw [hcr]; simp⟩
    constructor
    · unfold searchFoods
      dsimp only
      rw [hfalse]
      rfl
    · intro f _
      unfold foodMatches tokensAllIn jsIncludes specMatchProp
      simp [List.all_eq_true, List.any_eq_true, decide_eq_true_eq]

theorem searchFoods_spec_witness :
    searchFoods ("") = [] ∧
    searchFoods ("  ") = [] ∧
    (searchFoods ("a")).length ≤ 10 ∧
    searchFoods ("roti") =
      (nutritionDbFoods.filter (foodMatches (splitWs (jsTrim (jsLower ("roti")))))).take 10 := by
  refine ⟨?_, ?_, ?_, ?_⟩
  · exact (searchFoods_spec ("")).1 (by with_unfolding_all decide)
  · exact (searchFoods_spec ("  ")).1 (by with_unfolding_all decide)
  · exact (searchFoods_spec ("a")).2.1
  · exact ((searchFoods_spec ("roti")).2.2 (by with_unfolding_all decide)).1

theorem catalog_coeffs_nonneg : ∀ f ∈ nutritionDbFoods, coeffsNonneg f := by
  with_unfolding_all decide

theorem round_cast_nonneg {x : ℚ} (hx : 0 ≤ x) : (0 : ℚ) ≤ ((round x : ℤ) : ℚ) := by
  have h : (0 : ℤ) ≤ round x := by
    rw [round_eq]
    rw [Int.le_floor]
    push_cast
    linarith
  exact_mod_cast h

theorem round1_nonneg {x : ℚ} (hx : 0 ≤ x) : 0 ≤ round1 x := by
  unfold round1 jsRound
  have h : (0 : ℚ) ≤ ((round (10 * x) : ℤ) : ℚ) := round_cast_nonneg (by linarith)
  linarith

theorem calculateNutrients_known {fid : String} {food : FoodItem} {g : ℚ}
    (h : findFood fid = some food) (hg : 0 < g) :
    calculateNutrients fid g =
      if verifySanity (rawNutrients food g) = .failed then
        .error (.dataIntegrity food.name)
      else .ok (rawNutrients food g) := by
  unfold calculateNutrients
  rw [h]
  dsimp only
  rw [if_neg (not_le.mpr hg)]

/-- Branch analysis of verifySanity for nonnegative calories and
expectation: hard failure happens exactly beyond the hard threshold, the
band between the tolerances only warns, and the near-zero floor skips. -/
theorem verifySanity_cases (n : Nutrients) (hc : 0 ≤ n.calories)
    (he : 0 ≤ atwaterExpected n) :
    (verifySanity n = .failed ↔
      max (n.calories * 0.5) 50 < |n.calories - atwaterExpected n|) ∧
    ((max (n.calories * 0.2) 20 < |n.calories - atwaterExpected n| ∧
      |n.calories - atwaterExpected n| ≤ max (n.calories * 0.5) 50) →
      verifySanity n = .warned) ∧
    ((atwaterExpected n < 10 ∧ n.calories < 10) → verifySanity n = .skipped) := by
  have hsofthard : max (n.calories * 0.2) 20 ≤ max (n.calories * 0.5) 50 := by
    apply max_le
    · calc n.calories * 0.2 ≤ n.calories * 0.5 := by nlinarith
        _ ≤ max (n.calories * 0.5) 50 := le_max_left _ _
    · calc (20 : ℚ) ≤ 50 := by norm_num
        _ ≤ max (n.calories * 0.5) 50 := le_max_right _ _
  have hhard50 : (50 : ℚ) ≤ max (n.calories * 0.5) 50 := le_max_right _ _
  unfold verifySanity
  by_cases hskip : atwaterExpected n < 10 ∧ n.calories < 10
  · rw [if_pos hskip]
    have hdiff : |n.calories - atwaterExpected n| < 10 := by
      rw [abs_lt]
      constructor <;> linarith [hskip.1, hskip.2]
    refine ⟨?_, ?_, fun _ => rfl⟩
    · constructor
      · intro hcon
        cases hcon
      · intro hcon
        linarith
    · intro h
      have h20 : (20 : ℚ) ≤ max (n.calories * 0.2) 20 := le_max_right _ _
      linarith [h.1, hdiff]
  · rw [if_neg hskip]
    dsimp only
    by_cases hsoft : max (n.calories * 0.2) 20 < |n.calories - atwaterExpected n|
    · rw [if_pos hsoft]
      by_cases hhard : max (n.calories * 0.5) 50 < |n.calories - atwaterExpected n|
      · rw [if_pos hhard]
        refine ⟨⟨fun _ => hhard, fun _ => rfl⟩, ?_, ?_⟩
        · intro hcon
          exact absurd hhard (not_lt.mpr hcon.2)
        · intro hcon
          exact absurd hcon hskip
      · rw [if_neg hhard]
        refine ⟨⟨?_, ?_⟩, fun _ => rfl, ?_⟩
        · intro hcon
          cases hcon
        · intro hcon
          exact absurd hcon hhard
        · intro hcon
          exact absurd hcon hskip
    · rw [if_neg hsoft]
      refine ⟨⟨?_, ?_⟩, ?_, ?_⟩
      · intro hcon
        cases hcon
      · intro hcon
        exact absurd (lt_of_le_of_lt hsofthard hcon) hsoft
      · intro hcon
        exact absurd hcon.1 hsoft
      · intro hcon
        exact absurd hcon hskip

/-- Claim C5.  For a catalog food and a positive portion, the call fails
hard with the data-integrity error exactly when the Atwater discrepancy
of the computed record exceeds max(calories * 0.5, 50); a discrepancy
above max(calories * 0.2, 20) but inside the hard bound only reaches the
warning branch and the record is still returned; and when both calories
and the expectation sit below the floor of 10 the check is skipped and
the call succeeds. -/
theorem verifySanity_thresholds (fid : String) (food : FoodItem) (g : ℚ)
    (hfind : findFood fid = some food) (hg : 0 < g) :
    (calculateNutrients fid g = .error (.dataIntegrity food.name) ↔
      max ((rawNutrients food g).calories * 0.5) 50 <
        |(rawNutrients food g).calories - atwaterExpected (rawNutrients food g)|) ∧
    ((max ((rawNutrients food g).calories * 0.2) 20 <
        |(rawNutrients food g).calories - atwaterExpected (rawNutrients food g)| ∧
      |(rawNutrients food g).calories - atwaterExpected (rawNutrients food g)| ≤
        max ((rawNutrients food g).calories * 0.5) 50) →
      verifySanity (rawNutrients food g) = .warned ∧
      calculateNutrients fid g = .ok (rawNutrients food g)) ∧
    ((atwaterExpected (rawNutrients food g) < 10 ∧ (rawNutrients food g).calories < 10) →
      verifySanity (rawNutrients food g) = .skipped ∧
      calculateNutrients fid g = .ok (rawNutrients food g)) := by
  have hmem : food ∈ nutritionDbFoods := by
    unfold findFood at hfind
    exact List.mem_of_find?_eq_some hfind
  obtain ⟨hcal, hpro, hcar, hfat, hfib⟩ := catalog_coeffs_nonneg food hmem
  have hc : 0 ≤ (rawNutrients food g).calories := by
    show (0 : ℚ) ≤ ((jsRound (food.nutrientsPerGram.calories * g) : ℤ) : ℚ)
    unfold jsRound
    exact round_cast_nonneg (by positivity)
  have he : 0 ≤ atwaterExpected (rawNutrients food g) := by
    show 0 ≤ (rawNutrients food g).protein * 4 + (rawNutrients food g).carbs * 4 +
      (rawNutrients food g).fat * 9
    have h1 : 0 ≤ (rawNutrients food g).protein :=
      round1_nonneg (by positivity)
    have h2 : 0 ≤ (rawNutrients food g).carbs :=
      round1_nonneg (by positivity)
    have h3 : 0 ≤ (rawNutrients food g).fat :=
      round1_nonneg (by positivity)
    linarith
  obtain ⟨hiff, hwarn, hskip⟩ := verifySanity_cases (rawNutrients food g) hc he
  rw [calculateNutrients_known hfind hg]
  refine ⟨?_, ?_, ?_⟩
  · constructor
    · intro hcon
      by_cases hv : verifySanity (rawNutrients food g) = .failed
      · exact hiff.mp hv
      · rw [if_neg hv] at hcon
        cases hcon
    · intro hgt
      rw [if_pos (hiff.mpr hgt)]
  · intro hband
    have hw := hwarn hband
    have hnf : ¬ verifySanity (rawNutrients food g) = .failed := by
      rw [hw]
      intro hcon
      cases hcon
    exact ⟨hw, by rw [if_neg hnf]⟩
  · intro hfloor
    have hs := hskip hfloor
    have hnf : ¬ verifySanity (rawNutrients food g) = .failed := by
      rw [hs]
      intro hcon
      cases hcon
    exact ⟨hs, by rw [if_neg hnf]⟩

theorem verifySanity_thresholds_witness :
    (calculateNutrients ("ifct_001") 40 ≠
      .error (.dataIntegrity (rotiFood.name))) ∧
    (verifySanity (rawNutrients appleItem 10) = .skipped ∧
      calculateNutrients ("ifct_011") 10 = .ok (rawNutrients appleItem 10)) := by
  constructor
  · intro hcon
    have := (verifySanity_thresholds ("ifct_001") rotiFood 40
      (by with_unfolding_all decide) (by norm_num)).1.mp hcon
    revert this
    with_unfolding_all decide
  · exact (verifySanity_thresholds ("ifct_011") appleItem 10
      (by with_unfolding_all decide) (by norm_num)).2.2
      (by with_unfolding_all decide)

theorem round1_abs_err (x : ℚ) : |round1 x - x| ≤ 1 / 20 := by
  unfold round1 jsRound
  have h := abs_sub_round (10 * x)
  rw [abs_sub_comm] at h
  have heq : ((round (10 * x) : ℤ) : ℚ) / 10 - x = (((round (10 * x) : ℤ) : ℚ) - 10 * x) / 10 := by
    ring
  rw [heq, abs_div]
  have h10 : |(10 : ℚ)| = 10 := by norm_num
  rw [h10]
  linarith

theorem catalog_slopes : ∀ f ∈ nutritionDbFoods, atwaterSlopeOK f := by
  with_unfolding_all decide

/-- Core of the Atwater bound: when the per-gram discrepancy is at most
373 / 2010 of the per-gram calories, the rounded record satisfies the
soft tolerance at every positive portion.  The margin splits into the
20 kcal absolute floor for small portions and the twenty-percent band,
less rounding slack (at most 1/2 kcal on calories and 1/20 g per macro),
for large ones. -/
theorem atwater_bound_core (C P Cb F g : ℚ) (hg : 0 < g)
    (hslope : 2010 * |C - (P * 4 + Cb * 4 + F * 9)| ≤ 373 * C) :
    |((jsRound (C * g) : ℤ) : ℚ) -
        (round1 (P * g) * 4 + round1 (Cb * g) * 4 + round1 (F * g) * 9)| ≤
      max (((jsRound (C * g) : ℤ) : ℚ) * 0.2) 20 := by
  set cal : ℚ := ((jsRound (C * g) : ℤ) : ℚ) with hcal
  set expected : ℚ := round1 (P * g) * 4 + round1 (Cb * g) * 4 + round1 (F * g) * 9
    with hexpected
  have h1 : |cal - C * g| ≤ 1 / 2 := by
    rw [hcal]
    unfold jsRound
    rw [abs_sub_comm]
    exact abs_sub_round (C * g)
  have hp := round1_abs_err (P * g)
  have hcb := round1_abs_err (Cb * g)
  have hf := round1_abs_err (F * g)
  set E : ℚ := P * 4 + Cb * 4 + F * 9 with hE
  have hExp : |expected - E * g| ≤ 17 / 20 := by
    have hsplit : expected - E * g =
        (round1 (P * g) - P * g) * 4 + (round1 (Cb * g) - Cb * g) * 4 +
        (round1 (F * g) - F * g) * 9 := by
      rw [hexpected, hE]
      ring
    rw [hsplit]
    have t1 : |(round1 (P * g) - P * g) * 4 + (round1 (Cb * g) - Cb * g) * 4 +
        (round1 (F * g) - F * g) * 9| ≤
        |(round1 (P * g) - P * g) * 4 + (round1 (Cb * g) - Cb * g) * 4| +
        |(round1 (F * g) - F * g) * 9| := abs_add _ _
    have t2 : |(round1 (P * g) - P * g) * 4 + (round1 (Cb * g) - Cb * g) * 4| ≤
        |(round1 (P * g) - P * g) * 4| + |(round1 (Cb * g) - Cb * g) * 4| := abs_add _ _
    have a1 : |(round1 (P * g) - P * g) * 4| = |round1 (P * g) - P * g| * 4 := by
      rw [abs_mul]
      norm_num
    have a2 : |(round1 (Cb * g) - Cb * g) * 4| = |round1 (Cb * g) - Cb * g| * 4 := by
      rw [abs_mul]
      norm_num
    have a3 : |(round1 (F * g) - F * g) * 9| = |round1 (F * g) - F * g| * 9 := by
      rw [abs_mul]
      norm_num
    rw [a1, a2] at t2
    rw [a3] at t1
    linarith
  set d : ℚ := |C - E| with hd
  have hd0 : 0 ≤ d := abs_nonneg _
  have hdg : |C * g - E * g| = d * g := by
    have : C * g - E * g = (C - E) * g := by ring
    rw [this, abs_mul, abs_of_pos hg]
  have hmain : |cal - expected| ≤ d * g + 27 / 20 := by
    have hsplit : cal - expected = (cal - C * g) + (C * g - E * g) + (E * g - expected) := by
      ring
    have t1 : |cal - expected| ≤ |(cal - C * g) + (C * g - E * g)| + |E * g - expected| := by
      rw [hsplit]
      exact abs_add _ _
    have t2 : |(cal - C * g) + (C * g - E * g)| ≤ |cal - C * g| + |C * g - E * g| :=
      abs_add _ _
    have t3 : |E * g - expected| = |expected - E * g| := abs_sub_comm _ _
    rw [hdg] at t2
    rw [t3] at t1
    linarith
  rcases le_or_lt (d * g) (373 / 20) with hcase | hcase
  · have : |cal - expected| ≤ 20 := by linarith
    exact le_trans this (le_max_right _ _)
  · have hslope2 : 2010 * d * g ≤ 373 * (C * g) := by
      have := mul_le_mul_of_nonneg_right hslope (le_of_lt hg)
      calc 2010 * d * g = 2010 * |C - (P * 4 + Cb * 4 + F * 9)| * g := by rw [hd, hE]
        _ ≤ 373 * C * g := this
        _ = 373 * (C * g) := by ring
    have hcallo : C * g - 1 / 2 ≤ cal := by
      have := (abs_le.mp h1).1
      linarith
    have h20 : d * g + 27 / 20 ≤ cal * 0.2 := by
      nlinarith [hslope2, hcallo, hcase, hd0]
    exact le_trans (le_trans hmain h20) (le_max_left _ _)

/-- Claim C1.  For every catalog food and every positive portion, any
record calculateNutrients returns satisfies the Atwater band: the
discrepancy between its calories and 4 p + 4 c + 9 f stays within
max(0.2 * calories, 20); otherwise the call would have failed, so a
returned record never violates the band. -/
theorem calculateNutrients_atwater_bound (fid : String) (food : FoodItem) (g : ℚ)
    (n : Nutrients) (hfind : findFood fid = some food) (hg : 0 < g)
    (hok : calculateNutrients fid g = .ok n) :
    |n.calories - (n.protein * 4 + n.carbs * 4 + n.fat * 9)| ≤
      max (n.calories * 0.2) 20 := by
  rw [calculateNutrients_known hfind hg] at hok
  have hn : n = rawNutrients food g := by
    by_cases hv : verifySanity (rawNutrients food g) = .failed
    · rw [if_pos hv] at hok
      cases hok
    · rw [if_neg hv] at hok
      simpa using hok.symm
  subst hn
  have hmem : food ∈ nutritionDbFoods := by
    unfold findFood at hfind
    exact List.mem_of_find?_eq_some hfind
  have hslope := catalog_slopes food hmem
  unfold atwaterSlopeOK perGramExpected at hslope
  show |((jsRound (food.nutrientsPerGram.calories * g) : ℤ) : ℚ) -
      (round1 (food.nutrientsPerGram.protein * g) * 4 +
       round1 (food.nutrientsPerGram.carbs * g) * 4 +
       round1 (food.nutrientsPerGram.fat * g) * 9)| ≤
    max (((jsRound (food.nutrientsPerGram.calories * g) : ℤ) : ℚ) * 0.2) 20
  exact atwater_bound_core food.nutrientsPerGram.calories food.nutrientsPerGram.protein
    food.nutrientsPerGram.carbs food.nutrientsPerGram.fat g hg hslope.2

theorem calculateNutrients_atwater_bound_witness :
    |rotiComputed.calories - (rotiComputed.protein * 4 + rotiComputed.carbs * 4 +
      rotiComputed.fat * 9)| ≤ max (rotiComputed.calories * 0.2) 20 :=
  calculateNutrients_atwater_bound ("ifct_001") rotiFood 40 rotiComputed
    (by with_unfolding_all decide) (by norm_num) (by with_unfolding_all decide)
